import Mathlib

/-
Verification of src/trunkindexer/kaldi.cc against its specification.

The file is a Python extension module wrapping the Kaldi speech engine.
Its logical payload is:
  - a process-wide diagnostic buffer `errlog` (line 13) fed by the log
    handler `trap` (lines 17-26), which retains only error and
    assertion-failure messages;
  - `basic` (lines 31-173): loads model artifacts, the search graph and
    the symbol table, reads the wave data, feeds it to the feature
    pipeline in chunks, finalizes decoding, extracts the best path and
    renders it as text, and releases the graph and symbol table;
  - `decode` (lines 175-196): the Python boundary; on success returns the
    text, on any exception writes the exception text to std::cerr, sets a
    Python RuntimeError whose message is the current contents of `errlog`,
    and returns NULL.

The embedding below models each call into the external Kaldi engine by an
environment `Env` that records, for each fallible external step, whether
it fails (and with which diagnostic), together with the data the engine
hands back (wave length, best-path word ids, symbol-table contents).
Every Kaldi failure is an exception carrying a `what` text; failures
raised through KALDI_ERR additionally deliver their message to the
installed log handler, hence to `errlog`, before the throw.  Failures not
routed through Kaldi logging (for example std::bad_alloc) log nothing;
the `logged` field is `none` for those.
-/

namespace TrunkIndexer

/-- One failure thrown by an external call: `logged` is the message the
Kaldi log handler received before the throw (none when the exception did
not pass through Kaldi logging), `what` is the text of the C++ exception
as seen by the catch block. -/
structure Failure where
  logged : Option String
  what : String
deriving DecidableEq

/-- Text appended to the diagnostic buffer by a failure: the logged
message, or nothing when the exception did not pass through the handler. -/
def logOf (f : Failure) : String := f.logged.getD ""

/-- Failure produced by KALDI_ERR with message `msg`: the handler receives
`msg` (lines 17-26 retain it in `errlog`), and the thrown exception
carries it. -/
def kaldiErrFailure (msg : String) : Failure := ⟨some msg, msg⟩

/-- Failure thrown at lines 165-166 when a best-path word id has no
non-empty entry in the symbol table. -/
def wordIdFailure (w : Nat) : Failure :=
  kaldiErrFailure ("Word-id " ++ toString w ++ " not in symbol table.")

/-- Observable events of one call, in order: allocation of the search
graph (line 96) and symbol table (line 100), the pipeline calls of the
chunk loop (lines 128-144), finalization (line 145), lattice retrieval
(line 148), and the releases at lines 170-171. -/
inductive Ev where
  | loadFst
  | loadSyms
  | acceptWaveform (off len : Nat)
  | inputFinished
  | advanceDecoding
  | finalizeDecoding
  | getLattice
  | releaseFst
  | releaseSyms
deriving DecidableEq

/-- Chunk length used by the loop: line 123 sets it to the largest int32,
std::numeric_limits of int32, that is 2 ^ 31 - 1. -/
def chunkLength : Nat := 2 ^ 31 - 1

/-- Environment: the behavior of the external engine during one call.
Option fields are `some f` when the corresponding external step throws
failure `f`, in source order: the artifact loads of lines 76-91
(`loadErr`), ReadFstKaldiGeneric at line 96 (`fstErr`), the symbol-table
read and the KALDI_ERR of lines 98-102 (`symsErr`), the wave fetch at
line 110 (`audioErr`), AcceptWaveform at line 134 (`acceptErr`),
AdvanceDecoding at line 143 (`advanceErr`), and
FinalizeDecoding/GetLattice at lines 145-148 (`latticeErr`).  `syms` is
the symbol table read from words.txt, `dataDim` the sample count
data.Dim() of the wave, and `words` the best-path word ids returned by
GetLinearSymbolSequence at line 160. -/
structure Env where
  loadErr : Option Failure
  fstErr : Option Failure
  symsErr : Option Failure
  syms : List (Nat × String)
  audioErr : Option Failure
  dataDim : Nat
  acceptErr : Option Failure
  advanceErr : Option Failure
  latticeErr : Option Failure
  words : List Nat
deriving DecidableEq

/-- Symbol lookup, modelling fst::SymbolTable::Find at line 164: returns
the stored display string, and the empty string when the id is absent
(the OpenFst convention the check at line 165 relies on). -/
def find (syms : List (Nat × String)) (w : Nat) : String :=
  match syms.lookup w with
  | some s => s
  | none => ""

/-- Result-extraction loop of lines 162-168: for each word id in path
order look up its display string; an empty lookup result raises the
KALDI_ERR of line 166; otherwise append the string and a single space to
the accumulator (line 167). -/
def extractGo (syms : List (Nat × String)) : List Nat → String → Except Failure String
  | [], result => .ok result
  | w :: ws, result =>
    let s := find syms w
    if s = "" then .error (wordIdFailure w)
    else extractGo syms ws (result ++ (s ++ " "))

/-- Specification-side rendering of a best path: the display strings in
path order, each followed by a single space, concatenated. -/
def renderTranscript (syms : List (Nat × String)) (words : List Nat) : String :=
  String.join (words.map (fun w => find syms w ++ " "))

/-- Chunk-feed loop of lines 128-144.  While samples remain: take
`num_samp = min chunkLength remaining` samples (lines 129-131), submit
them to the feature pipeline (line 134), advance the offset (line 136),
pace against the timer (line 137, timing only, no observable state),
signal InputFinished when the offset reached the end (lines 138-141), and
advance decoding (line 143).  Returns the loop outcome and the events the
iterations emitted. -/
def feedLoop (env : Env) (dim off : Nat) : Except Failure Unit × List Ev :=
  if _h : off < dim then
    let numSamp := min chunkLength (dim - off)
    match env.acceptErr with
    | some f => (.error f, [Ev.acceptWaveform off numSamp])
    | none =>
      let offNext := off + numSamp
      let pre :=
        if offNext = dim then [Ev.acceptWaveform off numSamp, Ev.inputFinished]
        else [Ev.acceptWaveform off numSamp]
      match env.advanceErr with
      | some f => (.error f, pre ++ [Ev.advanceDecoding])
      | none =>
        let rest := feedLoop env dim offNext
        (rest.1, pre ++ [Ev.advanceDecoding] ++ rest.2)
  else (.ok (), [])
termination_by dim - off
decreasing_by
  have h1 : 1 ≤ min chunkLength (dim - off) := by
    have : 1 ≤ chunkLength := by decide
    omega
  omega

/-- Body of `basic` (lines 31-173) up to the effect on the diagnostic
buffer: the result of the call (the rendered transcript, or the first
failure thrown) together with the events emitted.  Steps in source order:
artifact loads (lines 76-91), search-graph load (line 96), symbol-table
read (lines 98-102), wave fetch (line 110), chunk-feed loop
(lines 128-144), finalization and lattice retrieval (lines 145-148),
best-path extraction into words (lines 150-160), rendering
(lines 162-168), releases and return (lines 170-172).  Any failure
propagates as a C++ exception: the releases at lines 170-171 are reached
only on the success path. -/
def basicCore (env : Env) : Except Failure String × List Ev :=
  match env.loadErr with
  | some f => (.error f, [])
  | none =>
  match env.fstErr with
  | some f => (.error f, [])
  | none =>
  match env.symsErr with
  | some f => (.error f, [Ev.loadFst])
  | none =>
  match env.audioErr with
  | some f => (.error f, [Ev.loadFst, Ev.loadSyms])
  | none =>
  match feedLoop env env.dataDim 0 with
  | (.error f, tr) => (.error f, [Ev.loadFst, Ev.loadSyms] ++ tr)
  | (.ok _, tr) =>
  match env.latticeErr with
  | some f => (.error f, [Ev.loadFst, Ev.loadSyms] ++ tr ++ [Ev.finalizeDecoding, Ev.getLattice])
  | none =>
  match extractGo env.syms env.words "" with
  | .error f => (.error f, [Ev.loadFst, Ev.loadSyms] ++ tr ++ [Ev.finalizeDecoding, Ev.getLattice])
  | .ok result =>
      (.ok result,
       [Ev.loadFst, Ev.loadSyms] ++ tr
         ++ [Ev.finalizeDecoding, Ev.getLattice, Ev.releaseFst, Ev.releaseSyms])

/-- Outcome of `basic` including the diagnostic buffer: `res` is the
returned string or the thrown failure, `errlog` the buffer after the
call, `trace` the emitted events. -/
structure BasicOut where
  res : Except Failure String
  errlog : String
  trace : List Ev

/-- Function `basic` (lines 31-173) with the process-wide buffer `errlog`
threaded explicitly: `log0` is the buffer content at entry.  The handler
installed at line 38 appends (line 23) the message of the one failure
that ends the call, if that failure passed through Kaldi logging; the
buffer is never cleared anywhere in the file. -/
def basic (env : Env) (log0 : String) : BasicOut :=
  match basicCore env with
  | (.ok r, tr) => ⟨.ok r, log0, tr⟩
  | (.error f, tr) => ⟨.error f, log0 ++ logOf f, tr⟩

/-- Observable outcome of one `decode` call at the Python boundary:
`ret` is the returned Python string (none means NULL was returned),
`exc` the message of the RuntimeError set via PyErr_SetString (none when
no error was set), `errlog` the process-wide buffer after the call,
`cerr` the text written to std::cerr during the call, `trace` the
events. -/
structure DecodeOut where
  ret : Option String
  exc : Option String
  errlog : String
  cerr : String
  trace : List Ev

/-- Function `decode` (lines 175-196): calls `basic`; on success returns
the Python string built from the result (line 190); on an exception
writes the exception text to std::cerr (line 192), sets a RuntimeError
whose message is the current contents of `errlog` (line 193) and returns
NULL (line 194). -/
def decode (env : Env) (log0 : String) : DecodeOut :=
  let b := basic env log0
  match b.res with
  | .ok r => ⟨some r, none, b.errlog, "", b.trace⟩
  | .error f => ⟨none, some b.errlog, b.errlog, f.what, b.trace⟩

/-- Modelled from the spec: the Speech Engine is an external collaborator
(not code of this repository), and on a zero-sample utterance it either
reports an engine failure at the finalize/lattice stage or yields an
empty best path — the spec allows that a zero-length input "may
legitimately yield an empty transcription". -/
def ZeroAudioEngineOk (env : Env) : Prop :=
  env.dataDim = 0 → (env.latticeErr.isSome = true ∨ env.words = [])

/-! Helper lemmas about the embedding. -/

/-- Joining a cons is appending the head. -/
theorem join_cons (a : String) (l : List String) : String.join (a :: l) = a ++ String.join l := by
  simp [String.join_eq]
  cases a
  rfl

/-- The loop does nothing once the offset reached the end (line 128). -/
theorem feedLoop_none (env : Env) (dim off : Nat) (hge : dim ≤ off) :
    feedLoop env dim off = (.ok (), []) := by
  rw [feedLoop]
  rw [dif_neg (by omega)]

/-- Zero-length audio: the loop body never runs. -/
theorem feedLoop_zero (env : Env) : feedLoop env 0 0 = (.ok (), []) :=
  feedLoop_none env 0 0 (Nat.le_refl 0)

/-- With the chunk length of line 123, the largest int32, non-empty audio
whose sample count fits an int32 is consumed in a single iteration:
submit the whole wave, signal InputFinished, advance decoding once. -/
theorem feedLoop_single (env : Env) (dim : Nat) (h1 : 0 < dim) (h2 : dim ≤ chunkLength) :
    feedLoop env dim 0 =
      match env.acceptErr with
      | some f => (.error f, [Ev.acceptWaveform 0 dim])
      | none =>
        match env.advanceErr with
        | some f =>
            (.error f, [Ev.acceptWaveform 0 dim, Ev.inputFinished, Ev.advanceDecoding])
        | none =>
            (.ok (), [Ev.acceptWaveform 0 dim, Ev.inputFinished, Ev.advanceDecoding]) := by
  have hmin : min chunkLength (dim - 0) = dim := by
    rw [Nat.sub_zero]
    exact Nat.min_eq_right h2
  rw [feedLoop, dif_pos h1]
  simp only [hmin, Nat.zero_add, if_true]
  cases env.acceptErr with
  | some f => rfl
  | none =>
    cases env.advanceErr with
    | some f => rfl
    | none =>
      rw [feedLoop_none env dim dim (Nat.le_refl dim)]
      rfl

/-- Every event the loop emits is a waveform submission, an end-of-input
signal, or a search advance. -/
theorem feedLoop_mem (env : Env) :
    ∀ (n dim off : Nat), dim - off ≤ n →
      ∀ e ∈ (feedLoop env dim off).2,
        e = Ev.inputFinished ∨ e = Ev.advanceDecoding ∨ ∃ o l, e = Ev.acceptWaveform o l := by
  intro n
  induction n with
  | zero =>
    intro dim off hle e he
    rw [feedLoop_none env dim off (by omega)] at he
    simp at he
  | succ n ih =>
    intro dim off hle e he
    by_cases hlt : off < dim
    · rw [feedLoop, dif_pos hlt] at he
      simp only [] at he
      cases hA : env.acceptErr with
      | some f =>
        rw [hA] at he
        simp at he
        subst he
        exact Or.inr (Or.inr ⟨_, _, rfl⟩)
      | none =>
        rw [hA] at he
        cases hB : env.advanceErr with
        | some f =>
          rw [hB] at he
          by_cases hfin : off + min chunkLength (dim - off) = dim
          · rw [if_pos hfin] at he
            simp at he
            rcases he with h | h | h
            · exact Or.inr (Or.inr ⟨_, _, h⟩)
            · exact Or.inl h
            · exact Or.inr (Or.inl h)
          · rw [if_neg hfin] at he
            simp at he
            rcases he with h | h
            · exact Or.inr (Or.inr ⟨_, _, h⟩)
            · exact Or.inr (Or.inl h)
        | none =>
          rw [hB] at he
          have hrec : dim - (off + min chunkLength (dim - off)) ≤ n := by
            have : 1 ≤ min chunkLength (dim - off) := by
              have : 1 ≤ chunkLength := by decide
              omega
            omega
          by_cases hfin : off + min chunkLength (dim - off) = dim
          · rw [if_pos hfin] at he
            simp at he
            rcases he with h | h | h | h
            · exact Or.inr (Or.inr ⟨_, _, h⟩)
            · exact Or.inl h
            · exact Or.inr (Or.inl h)
            · exact ih dim _ hrec e (by simpa using h)
          · rw [if_neg hfin] at he
            simp at he
            rcases he with h | h | h
            · exact Or.inr (Or.inr ⟨_, _, h⟩)
            · exact Or.inr (Or.inl h)
            · exact ih dim _ hrec e (by simpa using h)
    · rw [feedLoop_none env dim off (by omega)] at he
      simp at he

/-- The loop never emits allocation, finalization, lattice or release
events. -/
theorem feedLoop_not_mem (env : Env) (dim off : Nat) (e : Ev)
    (h : e = Ev.loadFst ∨ e = Ev.loadSyms ∨ e = Ev.finalizeDecoding ∨ e = Ev.getLattice ∨
      e = Ev.releaseFst ∨ e = Ev.releaseSyms) :
    e ∉ (feedLoop env dim off).2 := by
  intro he
  have := feedLoop_mem env (dim - off) dim off (Nat.le_refl _) e he
  rcases h with h | h | h | h | h | h <;> subst h <;>
    rcases this with h | h | ⟨o, l, h⟩ <;> simp at h

/-- The boundary function, written out by cases on the body outcome. -/
theorem decode_eq (env : Env) (log0 : String) :
    decode env log0 =
      match basicCore env with
      | (.ok r, tr) => ⟨some r, none, log0, "", tr⟩
      | (.error f, tr) => ⟨none, some (log0 ++ logOf f), log0 ++ logOf f, f.what, tr⟩ := by
  unfold decode basic
  cases hb : basicCore env with
  | mk res tr => cases res <;> rfl

/-- Rendering a cons splits off the head word. -/
theorem renderTranscript_cons (syms : List (Nat × String)) (w : Nat) (ws : List Nat) :
    renderTranscript syms (w :: ws) = (find syms w ++ " ") ++ renderTranscript syms ws := by
  simp [renderTranscript, join_cons]

/-- The extraction loop, characterized: it fails on the first word whose
lookup is empty, and otherwise appends the rendered transcript to the
accumulator. -/
theorem extractGo_eq (syms : List (Nat × String)) :
    ∀ (words : List Nat) (acc : String),
      extractGo syms words acc =
        match words.find? (fun w => find syms w == "") with
        | some j => Except.error (wordIdFailure j)
        | none => Except.ok (acc ++ renderTranscript syms words) := by
  intro words
  induction words with
  | nil =>
    intro acc
    simp [extractGo, renderTranscript, List.find?, String.join]
  | cons w ws ih =>
    intro acc
    simp only [extractGo]
    by_cases hw : find syms w = ""
    · rw [if_pos hw]
      have hfa : List.find? (fun x => find syms x == "") (w :: ws) = some w := by
        simp [List.find?, hw]
      rw [hfa]
    · rw [if_neg hw]
      rw [ih]
      have hb : (find syms w == "") = false := by simp [hw]
      have hfa : List.find? (fun x => find syms x == "") (w :: ws)
          = List.find? (fun x => find syms x == "") ws := by
        simp [List.find?, hb]
      rw [hfa]
      cases hfind : List.find? (fun x => find syms x == "") ws with
      | some j => rfl
      | none =>
        simp [renderTranscript_cons, String.append_assoc]

/-- Extraction depends on the symbol table only through lookup results. -/
theorem extractGo_congr (s1 s2 : List (Nat × String)) (h : ∀ w, find s1 w = find s2 w) :
    ∀ (words : List Nat) (acc : String), extractGo s1 words acc = extractGo s2 words acc := by
  intro words
  induction words with
  | nil => intro acc; rfl
  | cons w ws ih =>
    intro acc
    simp only [extractGo, h w]
    by_cases hw : find s2 w = ""
    · rw [if_pos hw, if_pos hw]
    · rw [if_neg hw, if_neg hw, ih]

/-- Removing the entries of key `i` from the table does not change the
lookup of any other key. -/
theorem lookup_filter_ne (i j : Nat) (syms : List (Nat × String)) (hne : j ≠ i) :
    (syms.filter (fun p => p.1 != i)).lookup j = syms.lookup j := by
  induction syms with
  | nil => rfl
  | cons p ps ih =>
    obtain ⟨k, v⟩ := p
    by_cases hk : k = i
    · have hb : (k != i) = false := by simp [hk]
      have hfil : ((k, v) :: ps).filter (fun p => p.1 != i) = ps.filter (fun p => p.1 != i) := by
        simp [List.filter, hb]
      rw [hfil, ih]
      have hjk : (j == k) = false := by
        simp
        rw [hk]
        exact hne
      have hlk : List.lookup j ((k, v) :: ps) = List.lookup j ps := by
        simp [List.lookup, hjk]
      rw [hlk]
    · have hb : (k != i) = true := by simp [hk]
      have hfil : ((k, v) :: ps).filter (fun p => p.1 != i)
          = (k, v) :: ps.filter (fun p => p.1 != i) := by
        simp [List.filter, hb]
      rw [hfil]
      by_cases hjk : j = k
      · have hb2 : (j == k) = true := by simp [hjk]
        simp [List.lookup, hb2]
      · have hb2 : (j == k) = false := by simp [hjk]
        simp [List.lookup, hb2, ih]

/-- Removing the entries of key `i` makes `i` absent. -/
theorem lookup_filter_self (i : Nat) (syms : List (Nat × String)) :
    (syms.filter (fun p => p.1 != i)).lookup i = none := by
  induction syms with
  | nil => rfl
  | cons p ps ih =>
    obtain ⟨k, v⟩ := p
    by_cases hk : k = i
    · have hb : (k != i) = false := by simp [hk]
      have hfil : ((k, v) :: ps).filter (fun p => p.1 != i) = ps.filter (fun p => p.1 != i) := by
        simp [List.filter, hb]
      rw [hfil, ih]
    · have hb : (k != i) = true := by simp [hk]
      have hfil : ((k, v) :: ps).filter (fun p => p.1 != i)
          = (k, v) :: ps.filter (fun p => p.1 != i) := by
        simp [List.filter, hb]
      rw [hfil]
      have hik : (i == k) = false := by
        simp
        exact fun hik => hk hik.symm
      simp [List.lookup, hik, ih]

/-- Lookup of a key stored with the empty display string and lookup after
removing that key both produce the empty string, and other keys are
unaffected: `find` cannot tell the two tables apart. -/
theorem find_filter_eq (syms : List (Nat × String)) (i : Nat) (h : syms.lookup i = some "") :
    ∀ w, find syms w = find (syms.filter (fun p => p.1 != i)) w := by
  intro w
  by_cases hw : w = i
  · subst hw
    unfold find
    rw [h, lookup_filter_self]
  · unfold find
    rw [lookup_filter_ne i w syms hw]

/-- A list not containing `x` admits no decomposition around `x`. -/
theorem no_middle {α : Type} (x : α) (tr : List α) (hx : x ∉ tr) :
    ∀ pre post, tr = pre ++ x :: post → False := by
  intro pre post heq
  apply hx
  rw [heq]
  simp

/-- When `x` occurs exactly once, the decomposition around it is unique
in its tail. -/
theorem unique_middle {α : Type} (x : α) :
    ∀ (l1 l2 pre post : List α), x ∉ l1 → x ∉ l2 → l1 ++ x :: l2 = pre ++ x :: post →
      post = l2 := by
  intro l1
  induction l1 with
  | nil =>
    intro l2 pre post h1 h2 heq
    cases pre with
    | nil =>
      simp at heq
      exact heq.symm
    | cons a pre2 =>
      simp at heq
      obtain ⟨ha, hl⟩ := heq
      exfalso
      apply h2
      rw [hl]
      simp
  | cons a l1 ih =>
    intro l2 pre post h1 h2 heq
    cases pre with
    | nil =>
      simp at heq
      obtain ⟨ha, hl⟩ := heq
      subst ha
      exact absurd (List.mem_cons_self a l1) h1
    | cons b pre2 =>
      simp at heq
      obtain ⟨hab, hrest⟩ := heq
      exact ih l2 pre2 post (fun hm => h1 (List.mem_cons_of_mem a hm)) h2 hrest

/-- All possible event traces of one call on non-empty audio whose sample
count fits an int32 (data.Dim() is an int32, so the bound always holds in
the source). -/
theorem basicCore_trace_cases (env : Env) (h1 : 0 < env.dataDim) (h2 : env.dataDim ≤ chunkLength) :
    (basicCore env).2 = [] ∨
    (basicCore env).2 = [Ev.loadFst] ∨
    (basicCore env).2 = [Ev.loadFst, Ev.loadSyms] ∨
    (env.acceptErr ≠ none ∧
      (basicCore env).2 = [Ev.loadFst, Ev.loadSyms, Ev.acceptWaveform 0 env.dataDim]) ∨
    (basicCore env).2 = [Ev.loadFst, Ev.loadSyms, Ev.acceptWaveform 0 env.dataDim,
      Ev.inputFinished, Ev.advanceDecoding] ∨
    (basicCore env).2 = [Ev.loadFst, Ev.loadSyms, Ev.acceptWaveform 0 env.dataDim,
      Ev.inputFinished, Ev.advanceDecoding, Ev.finalizeDecoding, Ev.getLattice] ∨
    (basicCore env).2 = [Ev.loadFst, Ev.loadSyms, Ev.acceptWaveform 0 env.dataDim,
      Ev.inputFinished, Ev.advanceDecoding, Ev.finalizeDecoding, Ev.getLattice,
      Ev.releaseFst, Ev.releaseSyms] := by
  have hfs := feedLoop_single env env.dataDim h1 h2
  cases hl : env.loadErr with
  | some f => simp [basicCore, hl]
  | none =>
    cases hf : env.fstErr with
    | some f => simp [basicCore, hl, hf]
    | none =>
      cases hs : env.symsErr with
      | some f => simp [basicCore, hl, hf, hs]
      | none =>
        cases ha : env.audioErr with
        | some f => simp [basicCore, hl, hf, hs, ha]
        | none =>
          cases hacc : env.acceptErr with
          | some f =>
            simp only [hacc] at hfs
            simp [basicCore, hl, hf, hs, ha, hfs, hacc]
          | none =>
            simp only [hacc] at hfs
            cases hadv : env.advanceErr with
            | some f =>
              simp only [hadv] at hfs
              simp [basicCore, hl, hf, hs, ha, hfs]
            | none =>
              simp only [hadv] at hfs
              cases hlat : env.latticeErr with
              | some f => simp [basicCore, hl, hf, hs, ha, hfs, hlat]
              | none =>
                cases hex : extractGo env.syms env.words "" with
                | error f => simp [basicCore, hl, hf, hs, ha, hfs, hlat, hex]
                | ok r => simp [basicCore, hl, hf, hs, ha, hfs, hlat, hex]

/-- The event trace of a call does not depend on the incoming buffer. -/
theorem decode_trace (env : Env) (log0 : String) :
    (decode env log0).trace = (basicCore env).2 := by
  rw [decode_eq]
  cases hb : basicCore env with
  | mk r tr => cases r <;> rfl

/-- The returned Python value is the body result and nothing else. -/
theorem decode_ret (env : Env) (log0 : String) :
    (decode env log0).ret = (basicCore env).1.toOption := by
  rw [decode_eq]
  cases hb : basicCore env with
  | mk r tr => cases r <;> rfl

/-- A failing call sets the RuntimeError message to the whole buffer, and
the buffer after the call extends the buffer before it. -/
theorem decode_fail_exc (env : Env) (s : String) (h : (decode env s).ret = none) :
    (decode env s).exc = some ((decode env s).errlog) ∧
    ∃ d, (decode env s).errlog = s ++ d := by
  rw [decode_eq] at h ⊢
  cases hb : basicCore env with
  | mk r tr =>
    cases r with
    | ok v =>
      rw [hb] at h
      exact Option.noConfusion h
    | error f => exact ⟨rfl, ⟨logOf f, rfl⟩⟩

/-- Release events appear in the trace exactly when the body succeeded:
the deletes of lines 170-171 sit after every fallible step and before the
return, and no exception path reaches them. -/
theorem basicCore_release_iff (env : Env) :
    (Ev.releaseFst ∈ (basicCore env).2 ↔ ∃ r, (basicCore env).1 = Except.ok r) ∧
    (Ev.releaseSyms ∈ (basicCore env).2 ↔ ∃ r, (basicCore env).1 = Except.ok r) := by
  have hnf := feedLoop_not_mem env env.dataDim 0 Ev.releaseFst (by simp)
  have hns := feedLoop_not_mem env env.dataDim 0 Ev.releaseSyms (by simp)
  cases hl : env.loadErr with
  | some f => simp [basicCore, hl]
  | none =>
    cases hf : env.fstErr with
    | some f => simp [basicCore, hl, hf]
    | none =>
      cases hs : env.symsErr with
      | some f => simp [basicCore, hl, hf, hs]
      | none =>
        cases ha : env.audioErr with
        | some f => simp [basicCore, hl, hf, hs, ha]
        | none =>
          cases hfl : feedLoop env env.dataDim 0 with
          | mk r tr =>
            rw [hfl] at hnf hns
            cases r with
            | error f => simp [basicCore, hl, hf, hs, ha, hfl, hnf, hns]
            | ok u =>
              cases hlat : env.latticeErr with
              | some f => simp [basicCore, hl, hf, hs, ha, hfl, hlat, hnf, hns]
              | none =>
                cases hex : extractGo env.syms env.words "" with
                | error f => simp [basicCore, hl, hf, hs, ha, hfl, hlat, hex, hnf, hns]
                | ok res => simp [basicCore, hl, hf, hs, ha, hfl, hlat, hex, hnf, hns]

/-! Concrete environments used as counterexamples and witnesses. -/

/-- Call in which the artifact load throws a KALDI_ERR with diagnostic
text A. -/
def envDiagA : Env :=
  { loadErr := some ⟨some "A", "A"⟩, fstErr := none, symsErr := none, syms := [],
    audioErr := none, dataDim := 0, acceptErr := none, advanceErr := none,
    latticeErr := none, words := [] }

/-- Call in which the artifact load throws a KALDI_ERR with diagnostic
text B. -/
def envDiagB : Env :=
  { loadErr := some ⟨some "B", "B"⟩, fstErr := none, symsErr := none, syms := [],
    audioErr := none, dataDim := 0, acceptErr := none, advanceErr := none,
    latticeErr := none, words := [] }

/-- Call that fails with an exception that never passed through Kaldi
logging, so the diagnostic buffer receives nothing. -/
def envNoLog : Env :=
  { loadErr := some ⟨none, "std::bad_alloc"⟩, fstErr := none, symsErr := none, syms := [],
    audioErr := none, dataDim := 0, acceptErr := none, advanceErr := none,
    latticeErr := none, words := [] }

/-- Call on a zero-sample wave: every load succeeds, the loop never runs,
and the engine refuses to produce a lattice for zero decoded frames. -/
def envZeroAudio : Env :=
  { loadErr := none, fstErr := none, symsErr := none, syms := [(1, "hello")],
    audioErr := none, dataDim := 0, acceptErr := none, advanceErr := none,
    latticeErr := some ⟨some "You cannot get a lattice if you decoded no frames.",
      "kaldi::KaldiFatalError"⟩, words := [] }

/-- Call in which the search graph loads but the symbol-table read fails
(lines 98-102), after the graph allocation of line 96. -/
def envSymsFail : Env :=
  { loadErr := none, fstErr := none,
    symsErr := some ⟨some "Could not read symbol table from file data/words.txt",
      "kaldi::KaldiFatalError"⟩,
    syms := [], audioErr := none, dataDim := 0, acceptErr := none, advanceErr := none,
    latticeErr := none, words := [] }

/-- Call with a corrupted acoustic-model artifact: the read at lines
76-91 throws. -/
def envCorruptModel : Env :=
  { loadErr := some ⟨some "ERROR (ReadKaldiObject): error reading final.mat",
      "kaldi::KaldiFatalError"⟩,
    fstErr := none, symsErr := none, syms := [], audioErr := none, dataDim := 0,
    acceptErr := none, advanceErr := none, latticeErr := none, words := [] }

/-- Fully successful call on one second of 8 kHz audio decoding to the
two words foo bar. -/
def envRun : Env :=
  { loadErr := none, fstErr := none, symsErr := none, syms := [(1, "foo"), (2, "bar")],
    audioErr := none, dataDim := 8000, acceptErr := none, advanceErr := none,
    latticeErr := none, words := [1, 2] }

/-! Claim theorems. -/

/-- C1 (counterexample): the diagnostic buffer is not empty again after a
failing call drains it.  First call fails with diagnostic A; its error
message is A and the buffer keeps A.  The second call fails with
diagnostic B, and its error message is AB: content captured during the
first call appears in the error message produced by the second call,
refuting the claim. -/
theorem c1_counterexample :
    (decode envDiagA "").exc = some "A" ∧
    (decode envDiagB ((decode envDiagA "").errlog)).exc = some "AB" ∧
    "AB" ≠ "B" := by decide

/-- C1 (amended): the buffer is never cleared.  Whatever the buffer holds
after one call (including everything captured during that call) persists
and reappears as a prefix of the error message of any later failing
call. -/
theorem c1_amended (e1 e2 : Env) (s : String)
    (h : (decode e2 ((decode e1 s).errlog)).ret = none) :
    ∃ d, (decode e2 ((decode e1 s).errlog)).exc = some ((decode e1 s).errlog ++ d) := by
  obtain ⟨hx, d, hd⟩ := decode_fail_exc e2 ((decode e1 s).errlog) h
  exact ⟨d, by rw [hx, hd]⟩

/-- C1 (witness): the amended statement at the two concrete failing calls. -/
theorem c1_amended_witness :
    (decode envDiagB ((decode envDiagA "").errlog)).ret = none ∧
    ∃ d, (decode envDiagB ((decode envDiagA "").errlog)).exc
        = some ((decode envDiagA "").errlog ++ d) :=
  ⟨by decide, c1_amended envDiagA envDiagB "" (by decide)⟩

/-- C2 (counterexample): a failing call whose exception never passed
through Kaldi logging leaves the buffer empty, and the raised RuntimeError
carries the empty string as its message — not a generic non-empty
placeholder. -/
theorem c2_counterexample :
    (decode envNoLog "").ret = none ∧ (decode envNoLog "").exc = some "" := by decide

/-- C2 (amended): every failing call raises a RuntimeError whose message
is exactly the current accumulated contents of the diagnostic buffer —
possibly empty, and possibly including content captured by earlier calls;
no generic placeholder is ever substituted. -/
theorem c2_amended (env : Env) (s : String) (h : (decode env s).ret = none) :
    (decode env s).exc = some ((decode env s).errlog) :=
  (decode_fail_exc env s h).1

/-- C2 (witness): the amended statement at a concrete failing call. -/
theorem c2_amended_witness :
    (decode envNoLog "").ret = none ∧
    (decode envNoLog "").exc = some ((decode envNoLog "").errlog) :=
  ⟨by decide, c2_amended envNoLog "" (by decide)⟩

/-- C3 (counterexample): on zero-length audio the end-of-input signal is
issued zero times, not exactly once: the InputFinished call sits inside
the loop body (lines 138-141), which never executes. -/
theorem c3_counterexample :
    envZeroAudio.dataDim = 0 ∧
    (decode envZeroAudio "").trace.count Ev.inputFinished = 0 ∧
    (decode envZeroAudio "").trace.count Ev.inputFinished ≠ 1 := by
  have ht : (decode envZeroAudio "").trace
      = [Ev.loadFst, Ev.loadSyms, Ev.finalizeDecoding, Ev.getLattice] := by
    rw [decode_trace]
    simp [basicCore, envZeroAudio, feedLoop_zero]
  refine ⟨by decide, ?_, ?_⟩ <;> rw [ht] <;> decide

/-- C3 (amended): for zero-length audio the loop body executes zero times
and end-of-input is never signaled; when loading succeeded, finalization
still proceeds; and the call yields an empty transcription or a
well-typed error, never both (assuming, as the spec allows, that the
engine yields an empty best path or an error on a zero-sample
utterance). -/
theorem c3_amended (env : Env) (log0 : String) (h0 : env.dataDim = 0)
    (hE : ZeroAudioEngineOk env) :
    ((∀ o l, Ev.acceptWaveform o l ∉ (decode env log0).trace) ∧
      Ev.inputFinished ∉ (decode env log0).trace) ∧
    ((decode env log0).ret = some "" ∨
      ((decode env log0).ret = none ∧ (decode env log0).exc.isSome = true)) ∧
    (env.loadErr = none → env.fstErr = none → env.symsErr = none → env.audioErr = none →
      Ev.finalizeDecoding ∈ (decode env log0).trace) := by
  have hfz : feedLoop env env.dataDim 0 = (.ok (), []) := by
    rw [h0]
    exact feedLoop_zero env
  rw [decode_eq]
  cases hl : env.loadErr with
  | some f => simp [basicCore, hl]
  | none =>
    cases hf : env.fstErr with
    | some f => simp [basicCore, hl, hf]
    | none =>
      cases hs : env.symsErr with
      | some f => simp [basicCore, hl, hf, hs]
      | none =>
        cases ha : env.audioErr with
        | some f => simp [basicCore, hl, hf, hs, ha]
        | none =>
          cases hlat : env.latticeErr with
          | some f => simp [basicCore, hl, hf, hs, ha, hfz, hlat]
          | none =>
            have hw : env.words = [] := by
              rcases hE h0 with hso | hw
              · rw [hlat] at hso
                simp at hso
              · exact hw
            have hex : extractGo env.syms env.words "" = Except.ok "" := by
              rw [hw]
              rfl
            simp [basicCore, hl, hf, hs, ha, hfz, hlat, hex]

/-- C3 (witness): the amended statement at a concrete zero-length call. -/
theorem c3_amended_witness :
    ((∀ o l, Ev.acceptWaveform o l ∉ (decode envZeroAudio "").trace) ∧
      Ev.inputFinished ∉ (decode envZeroAudio "").trace) ∧
    ((decode envZeroAudio "").ret = some "" ∨
      ((decode envZeroAudio "").ret = none ∧ (decode envZeroAudio "").exc.isSome = true)) ∧
    (envZeroAudio.loadErr = none → envZeroAudio.fstErr = none → envZeroAudio.symsErr = none →
      envZeroAudio.audioErr = none → Ev.finalizeDecoding ∈ (decode envZeroAudio "").trace) :=
  c3_amended envZeroAudio "" (by decide) (fun _ => Or.inl (by decide))

/-- C4: in every execution on non-empty audio (whose sample count fits an
int32, as data.Dim() guarantees), whenever end-of-input was signaled it
happened immediately before the last search advance; when all stages up
to waveform submission succeed, end-of-input is signaled; and after
finalization of the search session no waveform is submitted and no search
advance occurs. -/
theorem c4_feed_order (env : Env) (log0 : String)
    (h1 : 0 < env.dataDim) (h2 : env.dataDim ≤ chunkLength) :
    (Ev.inputFinished ∈ (decode env log0).trace →
      ∃ pre post,
        (decode env log0).trace = pre ++ Ev.inputFinished :: Ev.advanceDecoding :: post ∧
        Ev.advanceDecoding ∉ post) ∧
    (env.loadErr = none → env.fstErr = none → env.symsErr = none → env.audioErr = none →
      env.acceptErr = none → Ev.inputFinished ∈ (decode env log0).trace) ∧
    (∀ pre post, (decode env log0).trace = pre ++ Ev.finalizeDecoding :: post →
      Ev.advanceDecoding ∉ post ∧ ∀ o l, Ev.acceptWaveform o l ∉ post) := by
  rw [decode_trace]
  refine ⟨?_, ?_, ?_⟩
  · intro hIF
    rcases basicCore_trace_cases env h1 h2 with h | h | h | ⟨ha, h⟩ | h | h | h
    · rw [h] at hIF
      simp at hIF
    · rw [h] at hIF
      simp at hIF
    · rw [h] at hIF
      simp at hIF
    · rw [h] at hIF
      simp at hIF
    · exact ⟨[Ev.loadFst, Ev.loadSyms, Ev.acceptWaveform 0 env.dataDim], [],
        by rw [h]; rfl, by simp⟩
    · exact ⟨[Ev.loadFst, Ev.loadSyms, Ev.acceptWaveform 0 env.dataDim],
        [Ev.finalizeDecoding, Ev.getLattice], by rw [h]; rfl, by simp⟩
    · exact ⟨[Ev.loadFst, Ev.loadSyms, Ev.acceptWaveform 0 env.dataDim],
        [Ev.finalizeDecoding, Ev.getLattice, Ev.releaseFst, Ev.releaseSyms],
        by rw [h]; rfl, by simp⟩
  · intro hl hf hs ha hacc
    have hfs := feedLoop_single env env.dataDim h1 h2
    simp only [hacc] at hfs
    cases hadv : env.advanceErr with
    | some f =>
      simp only [hadv] at hfs
      simp [basicCore, hl, hf, hs, ha, hfs]
    | none =>
      simp only [hadv] at hfs
      cases hlat : env.latticeErr with
      | some f => simp [basicCore, hl, hf, hs, ha, hfs, hlat]
      | none =>
        cases hex : extractGo env.syms env.words "" with
        | error f => simp [basicCore, hl, hf, hs, ha, hfs, hlat, hex]
        | ok r => simp [basicCore, hl, hf, hs, ha, hfs, hlat, hex]
  · rcases basicCore_trace_cases env h1 h2 with h | h | h | ⟨ha, h⟩ | h | h | h <;> rw [h] <;>
      intro pre post heq
    · exact (no_middle Ev.finalizeDecoding _ (by simp) pre post heq).elim
    · exact (no_middle Ev.finalizeDecoding _ (by simp) pre post heq).elim
    · exact (no_middle Ev.finalizeDecoding _ (by simp) pre post heq).elim
    · exact (no_middle Ev.finalizeDecoding _ (by simp) pre post heq).elim
    · exact (no_middle Ev.finalizeDecoding _ (by simp) pre post heq).elim
    · have heq2 : [Ev.loadFst, Ev.loadSyms, Ev.acceptWaveform 0 env.dataDim,
          Ev.inputFinished, Ev.advanceDecoding] ++ Ev.finalizeDecoding :: [Ev.getLattice]
          = pre ++ Ev.finalizeDecoding :: post := by
        simpa using heq
      have hpost := unique_middle Ev.finalizeDecoding _ _ pre post (by simp) (by simp) heq2
      rw [hpost]
      exact ⟨by simp, by simp⟩
    · have heq2 : [Ev.loadFst, Ev.loadSyms, Ev.acceptWaveform 0 env.dataDim,
          Ev.inputFinished, Ev.advanceDecoding] ++ Ev.finalizeDecoding ::
            [Ev.getLattice, Ev.releaseFst, Ev.releaseSyms]
          = pre ++ Ev.finalizeDecoding :: post := by
        simpa using heq
      have hpost := unique_middle Ev.finalizeDecoding _ _ pre post (by simp) (by simp) heq2
      rw [hpost]
      exact ⟨by simp, by simp⟩

/-- C4 (witness): the ordering statement at a concrete successful call. -/
theorem c4_feed_order_witness :
    (Ev.inputFinished ∈ (decode envRun "").trace →
      ∃ pre post,
        (decode envRun "").trace = pre ++ Ev.inputFinished :: Ev.advanceDecoding :: post ∧
        Ev.advanceDecoding ∉ post) ∧
    (envRun.loadErr = none → envRun.fstErr = none → envRun.symsErr = none →
      envRun.audioErr = none → envRun.acceptErr = none →
      Ev.inputFinished ∈ (decode envRun "").trace) ∧
    (∀ pre post, (decode envRun "").trace = pre ++ Ev.finalizeDecoding :: post →
      Ev.advanceDecoding ∉ post ∧ ∀ o l, Ev.acceptWaveform o l ∉ post) :=
  c4_feed_order envRun "" (by decide) (by decide)

/-- C5: result extraction maps the best-path symbol ids in path order to
display strings and returns their concatenation with a single space after
each word; the first id whose display lookup is empty (in particular any
id absent from the vocabulary) aborts extraction with the fatal word-id
error — nothing is skipped or substituted. -/
theorem c5_extract_spec (syms : List (Nat × String)) (words : List Nat) :
    extractGo syms words "" =
      match words.find? (fun w => find syms w == "") with
      | some j => Except.error (wordIdFailure j)
      | none => Except.ok (renderTranscript syms words) := by
  rw [extractGo_eq]
  cases hf : words.find? (fun w => find syms w == "") with
  | some j => rfl
  | none => rw [String.empty_append]

/-- C6: every call either returns a transcription string with no error
set, or returns NULL with a RuntimeError message set — never both, never
neither. -/
theorem c6_exclusive_outcome (env : Env) (log0 : String) :
    ((∃ t, (decode env log0).ret = some t) ∧ (decode env log0).exc = none) ∨
    ((decode env log0).ret = none ∧ ∃ m, (decode env log0).exc = some m) := by
  rw [decode_eq]
  cases hb : basicCore env with
  | mk r tr =>
    cases r with
    | ok v => exact Or.inl ⟨⟨v, rfl⟩, rfl⟩
    | error f => exact Or.inr ⟨rfl, ⟨log0 ++ logOf f, rfl⟩⟩

/-- C7 (counterexample): an exit path on which the search graph was
loaded (line 96) but never released: the symbol-table read throws
(lines 98-102) and the exception path skips the deletes of
lines 170-171. -/
theorem c7_counterexample :
    (decode envSymsFail "").ret = none ∧
    Ev.loadFst ∈ (decode envSymsFail "").trace ∧
    Ev.releaseFst ∉ (decode envSymsFail "").trace ∧
    Ev.releaseSyms ∉ (decode envSymsFail "").trace := by decide

/-- C7 (amended): the search graph and the symbol table are released on
the success exit path and only there — on every failing exit path the
releases are skipped. -/
theorem c7_amended (env : Env) (log0 : String) :
    (Ev.releaseFst ∈ (decode env log0).trace ↔ (decode env log0).ret.isSome = true) ∧
    (Ev.releaseSyms ∈ (decode env log0).trace ↔ (decode env log0).ret.isSome = true) := by
  rw [decode_trace, decode_ret]
  obtain ⟨hfst, hsyms⟩ := basicCore_release_iff env
  rw [hfst, hsyms]
  cases hr : (basicCore env).1 <;> simp [Except.toOption]

/-- C8: a failing call writes the exception text to std::cerr (line 192),
an output stream outside the structured error channel, refuting the
frame condition the claim states. -/
theorem c8_cerr_emission :
    (decode envCorruptModel "").ret = none ∧
    (decode envCorruptModel "").cerr = "kaldi::KaldiFatalError" ∧
    (decode envCorruptModel "").cerr ≠ "" := by decide

/-- C9: running the same call again, serialized after a first call (so
with whatever the first call left in the diagnostic buffer), returns the
identical transcription value: the returned text depends only on the
inputs and the engine behavior, not on the carried-over buffer. -/
theorem c9_serial_determinism (env : Env) (s : String) :
    (decode env ((decode env s).errlog)).ret = (decode env s).ret := by
  rw [decode_ret, decode_ret]

/-- C10: an id stored in the vocabulary with the empty display string is
treated by extraction exactly like an id absent from the table:
extraction cannot distinguish the table from one with the id removed, and
reaching the id raises the fatal word-id-not-in-symbol-table error even
though the id is present. -/
theorem c10_empty_display (syms : List (Nat × String)) (i : Nat) (words : List Nat)
    (acc : String) (h : syms.lookup i = some "") :
    extractGo syms words acc = extractGo (syms.filter (fun p => p.1 != i)) words acc ∧
    extractGo syms (i :: words) acc = Except.error (wordIdFailure i) := by
  constructor
  · exact extractGo_congr _ _ (find_filter_eq syms i h) words acc
  · have hfi : find syms i = "" := by
      unfold find
      rw [h]
    simp [extractGo, hfi]

/-- C10 (witness): the statement at a concrete table mapping id 7 to the
empty string. -/
theorem c10_empty_display_witness :
    ([(2, "x"), (7, "")] : List (Nat × String)).lookup 7 = some "" ∧
    (extractGo [(2, "x"), (7, "")] [2] ""
        = extractGo (([(2, "x"), (7, "")] : List (Nat × String)).filter (fun p => p.1 != 7)) [2] "" ∧
      extractGo [(2, "x"), (7, "")] (7 :: [2]) "" = Except.error (wordIdFailure 7)) :=
  ⟨by decide, c10_empty_display [(2, "x"), (7, "")] 7 [2] "" (by decide)⟩

end TrunkIndexer
